import Mathlib

/-!
Verification of the bc-hydro-drought-monitor spatial-join core and file I/O.

The embedding models, from the source:
  * src/transform.py  — link_facilities_to_watershed_groups (CRS guard at
    lines 34-35, geopandas.sjoin call at lines 37-42);
  * src/io/files.py   — unzip_file (lines 15-52) and
    vector_to_geodataframe (lines 93-118).

Geometry collections (geopandas GeoDataFrames) become ordered lists of
records with an optional CRS identifier.  Coordinates are exact integers
(every coordinate the verified properties touch is integral; the float
arithmetic of the geometry library is idealized as exact); the
point-in-polygon predicate models the GEOS "within" relation for a point
against a simple polygon ring: the point must lie in the interior
(even-odd ray crossing rule), boundary points are excluded.  The PROJ
coordinate transformation used by GeoDataFrame.to_crs is an external
library, so it enters the embedding as an explicit function parameter
`tr : Point → Point`; every statement below holds for an arbitrary
transformation.
-/

namespace BCHydro

/-- Scalar attribute value of a record: string, exact number, or null
(models a pandas cell, with null standing for NaN / missing). -/
inductive Value where
  | str : String → Value
  | num : ℤ → Value
  | null : Value
deriving DecidableEq

/-- Planar point with exact integer coordinates. -/
structure Point where
  x : ℤ
  y : ℤ
deriving DecidableEq

/-- Polygon modelled by its outer ring (list of vertices, closed
implicitly: the last vertex connects back to the first). -/
abbrev Polygon := List Point

/-- Ordered attribute mapping of a record (field name to value), kept as an
insertion-ordered association list. -/
abbrev Attrs := List (String × Value)

/-- Cross product of vectors a-o and b-o; zero iff o, a, b are collinear. -/
def cross (o a b : Point) : ℤ :=
  (a.x - o.x) * (b.y - o.y) - (a.y - o.y) * (b.x - o.x)

/-- True when p lies on the closed segment from a to b. -/
def onSegment (p a b : Point) : Bool :=
  decide (cross a b p = 0) && decide (min a.x b.x ≤ p.x) &&
    decide (p.x ≤ max a.x b.x) && decide (min a.y b.y ≤ p.y) &&
    decide (p.y ≤ max a.y b.y)

/-- Edge list of a ring: consecutive vertex pairs, wrapping around. -/
def edges (poly : Polygon) : List (Point × Point) :=
  poly.zip (poly.rotate 1)

/-- True when p lies on the boundary of the ring. -/
def onBoundary (p : Point) (poly : Polygon) : Bool :=
  (edges poly).any (fun e => onSegment p e.1 e.2)

/-- True when the edge (a, b) crosses the horizontal ray from p towards
positive x (standard even-odd ray-casting test: the ray meets the edge at
x-coordinate a.x + (b.x - a.x)·(p.y - a.y)/(b.y - a.y); the comparison
p.x < that coordinate is written division-free by multiplying through by
b.y - a.y, whose sign follows from the branch). -/
def rayCrosses (p a b : Point) : Bool :=
  (decide (p.y < a.y) != decide (p.y < b.y)) &&
    (if a.y < b.y then
      decide ((p.x - a.x) * (b.y - a.y) < (b.x - a.x) * (p.y - a.y))
    else
      decide ((b.x - a.x) * (p.y - a.y) < (p.x - a.x) * (b.y - a.y)))

/-- Even-odd containment test for p against the ring (parity of ray
crossings). -/
def insideRing (p : Point) (poly : Polygon) : Bool :=
  ((edges poly).countP (fun e => rayCrosses p e.1 e.2)) % 2 == 1

/-- Models the GEOS predicate point-within-polygon used by
geopandas.sjoin(..., predicate='within'): the point must intersect the
polygon interior, so boundary points are not within. -/
def within (p : Point) (poly : Polygon) : Bool :=
  !onBoundary p poly && insideRing p poly

/-- Point-feature record: geometry plus attribute row. -/
structure PointRec where
  geom : Point
  attrs : Attrs
deriving DecidableEq

/-- Polygon-feature record: geometry plus attribute row. -/
structure PolyRec where
  geom : Polygon
  attrs : Attrs
deriving DecidableEq

/-- GeoDataFrame of point features: CRS identifier (none when unset) and
ordered rows. -/
structure PointFrame where
  crs : Option String
  rows : List PointRec
deriving DecidableEq

/-- GeoDataFrame of polygon features: CRS identifier, declared attribute
columns (the frame schema, present even when rows are empty), ordered
rows. -/
structure PolyFrame where
  crs : Option String
  cols : List String
  rows : List PolyRec
deriving DecidableEq

/-- Models GeoDataFrame.to_crs on a polygon frame: returns a new frame
whose geometries are the images under the coordinate transformation tr
and whose CRS identifier is the target c; attributes and schema are
unchanged.  to_crs never mutates its receiver. -/
def PolyFrame.to_crs (g : PolyFrame) (tr : Point → Point) (c : Option String) : PolyFrame :=
  { crs := c, cols := g.cols, rows := g.rows.map (fun r => { r with geom := r.geom.map tr }) }

/-- Result record of the spatial join: the point geometry with the merged
attribute row. -/
structure JoinRec where
  geom : Point
  attrs : Attrs
deriving DecidableEq

/-- Result frame of the spatial join. -/
structure JoinFrame where
  crs : Option String
  rows : List JoinRec
deriving DecidableEq

/-- All-null attribute row over the given columns (models the NaN fill of
a left join for an unmatched row). -/
def nullAttrs (cols : List String) : Attrs :=
  cols.map (fun n => (n, Value.null))

/-- Result rows contributed by one left point under
geopandas.sjoin(left, right, how='left', predicate='within'): one row per
polygon whose interior contains the point (in right-frame iteration
order), or a single row with all right columns null when no polygon
matches. -/
def sjoinOne (polys : PolyFrame) (p : PointRec) : List JoinRec :=
  if polys.rows.filter (fun g => within p.geom g.geom) = [] then
    [⟨p.geom, p.attrs ++ nullAttrs polys.cols⟩]
  else
    (polys.rows.filter (fun g => within p.geom g.geom)).map
      (fun g => ⟨p.geom, p.attrs ++ g.attrs⟩)

/-- Models geopandas.sjoin(points, polys, how='left', predicate='within'):
left rows in order, each expanded to its match rows; the result keeps the
left frame's CRS. -/
def sjoin (points : PointFrame) (polys : PolyFrame) : JoinFrame :=
  { crs := points.crs, rows := points.rows.flatMap (sjoinOne polys) }

/-- CRS guard of link_facilities_to_watershed_groups
(src/transform.py lines 34-35): when the two CRS identifiers differ the
polygon frame is reprojected to the point frame's CRS, otherwise it is
used as is. -/
def normalize_crs (tr : Point → Point) (facilities : PointFrame)
    (watershed_groups : PolyFrame) : PolyFrame :=
  if facilities.crs ≠ watershed_groups.crs then
    watershed_groups.to_crs tr facilities.crs
  else
    watershed_groups

/-- Models link_facilities_to_watershed_groups (src/transform.py
lines 10-42): normalize the polygon CRS to the point CRS, then left
spatial join on the within predicate. -/
def link_facilities_to_watershed_groups (tr : Point → Point)
    (facilities : PointFrame) (watershed_groups : PolyFrame) : JoinFrame :=
  sjoin facilities (normalize_crs tr facilities watershed_groups)

/-- State-passing view of a call to link_facilities_to_watershed_groups:
the pair s carries the caller's two collections; the call returns the
join result together with the caller's collections after the call.  The
Python body only rebinds its local name watershed_groups (line 35) and
calls to_crs and sjoin, both of which return new frames, so the caller's
objects come back as passed. -/
def link_call (tr : Point → Point) (s : PointFrame × PolyFrame) :
    JoinFrame × (PointFrame × PolyFrame) :=
  (link_facilities_to_watershed_groups tr s.1 s.2, s)

end BCHydro

namespace BCHydro

/-- Filesystem path as its list of components (models pathlib.Path). -/
abbrev FPath := List String

/-- Models the pathlib expression output_dir / entry. -/
def joinPath (dir : FPath) (entry : String) : FPath :=
  dir ++ [entry]

/-- Models unzip_file (src/io/files.py lines 15-52).  The filesystem is
the list fs of currently existing paths; extracting an entry writes its
target path output_dir / entry into the filesystem.  The loop walks the
archive entry names in order; an entry whose target already exists is
skipped when overwrite is false, every other entry is extracted and its
target appended to the returned list.  Returns the extracted paths in
order together with the final filesystem.  The initial mkdir of
output_dir only creates the directory and touches no target path. -/
def unzip_file (outputDir : FPath) (names : List String) (overwrite : Bool)
    (fs : List FPath) : List FPath × List FPath :=
  match names with
  | [] => ([], fs)
  | entry :: rest =>
    let target := joinPath outputDir entry
    if fs.contains target && !overwrite then
      unzip_file outputDir rest overwrite fs
    else
      let r := unzip_file outputDir rest overwrite (target :: fs)
      (target :: r.1, r.2)

/-- Python truthiness of an optional string: None and the empty string are
falsy. -/
def strTruthy : Option String → Bool
  | none => false
  | some s => decide (s ≠ "")

/-- Models vector_to_geodataframe (src/io/files.py lines 93-118) after
geopandas.read_file has produced the frame gdf.  The source condition is
the chained comparison target_crs != gdf.crs.to_string() != target_crs,
which evaluates as (target_crs != s) and (s != target_crs), i.e. a plain
inequality; the frame's crs field holds the to_string form of its CRS.
Reprojection runs only when target_crs is truthy, gdf.crs is set, and the
two identifiers differ. -/
def vector_to_geodataframe (tr : Point → Point) (gdf : PolyFrame)
    (target_crs : Option String) : PolyFrame :=
  if strTruthy target_crs && gdf.crs.isSome && decide (target_crs ≠ gdf.crs) then
    gdf.to_crs tr target_crs
  else
    gdf

/-! Concrete fixtures used by counterexamples and witnesses. -/

/-- Unit square centred at the origin (side 2). -/
def sq1 : Polygon := [⟨-1, -1⟩, ⟨-1, 1⟩, ⟨1, 1⟩, ⟨1, -1⟩]

/-- Square of side 4 centred at the origin; its interior strictly contains
the interior of sq1, so the origin lies in both. -/
def sq2 : Polygon := [⟨-2, -2⟩, ⟨-2, 2⟩, ⟨2, 2⟩, ⟨2, -2⟩]

/-- Square of the specification scenario:
(-124,48), (-124,50), (-122,50), (-122,48). -/
def specSq : Polygon := [⟨-124, 48⟩, ⟨-124, 50⟩, ⟨-122, 50⟩, ⟨-122, 48⟩]

/-- Facility record at the origin with attribute id = 1. -/
def originRec : PointRec := ⟨⟨0, 0⟩, [("id", Value.num 1)]⟩

/-- One-point frame holding originRec. -/
def P1 : PointFrame := ⟨some "EPSG:4326", [originRec]⟩

/-- Two overlapping polygons, both containing the origin, labelled A then
B in iteration order. -/
def G2 : PolyFrame :=
  ⟨some "EPSG:4326", ["wsg_id"],
    [⟨sq1, [("wsg_id", Value.str "A")]⟩, ⟨sq2, [("wsg_id", Value.str "B")]⟩]⟩

/-- Point frame of the specification scenario: one point (-123, 49) with
attribute id = 1. -/
def P3 : PointFrame := ⟨some "EPSG:4326", [⟨⟨-123, 49⟩, [("id", Value.num 1)]⟩]⟩

/-- Polygon frame of the specification scenario: the single square specSq
with id "A". -/
def G3 : PolyFrame :=
  ⟨some "EPSG:4326", ["wsg_id"], [⟨specSq, [("wsg_id", Value.str "A")]⟩]⟩

/-- Empty polygon frame (no rows) that still declares the wsg_id column. -/
def G0 : PolyFrame := ⟨some "EPSG:4326", ["wsg_id"], []⟩

/-- Point frame with one point (5, 5), outside sq1 and sq2, attribute
id = 2. -/
def P4 : PointFrame := ⟨some "EPSG:4326", [⟨⟨5, 5⟩, [("id", Value.num 2)]⟩]⟩

/-- Polygon frame in a different CRS (EPSG:3005), used to exercise the
reprojection branch. -/
def Gm : PolyFrame :=
  ⟨some "EPSG:3005", ["wsg_id"], [⟨sq1, [("wsg_id", Value.str "A")]⟩]⟩

/-! General lemmas about the embedding. -/

/-- Each left point contributes at least one result row. -/
theorem sjoinOne_ne_nil (polys : PolyFrame) (p : PointRec) :
    sjoinOne polys p ≠ [] := by
  unfold sjoinOne
  by_cases h : polys.rows.filter (fun g => within p.geom g.geom) = [] <;>
    simp [h]

/-- When the matching polygons are nonempty, sjoinOne returns exactly one
merged row per match, in right-frame order. -/
theorem sjoinOne_of_matches (polys : PolyFrame) (p : PointRec)
    (h : polys.rows.filter (fun g => within p.geom g.geom) ≠ []) :
    sjoinOne polys p =
      (polys.rows.filter (fun g => within p.geom g.geom)).map
        (fun g => ⟨p.geom, p.attrs ++ g.attrs⟩) := by
  unfold sjoinOne
  simp [h]

/-- When no polygon matches, sjoinOne returns the single all-null row. -/
theorem sjoinOne_of_no_match (polys : PolyFrame) (p : PointRec)
    (h : polys.rows.filter (fun g => within p.geom g.geom) = []) :
    sjoinOne polys p = [⟨p.geom, p.attrs ++ nullAttrs polys.cols⟩] := by
  unfold sjoinOne
  simp [h]

/-- A point with at most one matching polygon contributes exactly one
result row, carrying the point's geometry. -/
theorem sjoinOne_map_geom (polys : PolyFrame) (p : PointRec)
    (h : (polys.rows.filter (fun g => within p.geom g.geom)).length ≤ 1) :
    (sjoinOne polys p).map JoinRec.geom = [p.geom] := by
  rcases hm : polys.rows.filter (fun g => within p.geom g.geom) with _ | ⟨g, t⟩
  · rw [sjoinOne_of_no_match polys p hm]
    rfl
  · rcases t with _ | ⟨g2, t2⟩
    · rw [sjoinOne_of_matches polys p (by rw [hm]; exact List.cons_ne_nil g []), hm]
      rfl
    · rw [hm] at h
      simp at h

/-- CRS normalization preserves the declared columns of the polygon
frame. -/
theorem normalize_crs_cols (tr : Point → Point) (f : PointFrame) (g : PolyFrame) :
    (normalize_crs tr f g).cols = g.cols := by
  unfold normalize_crs PolyFrame.to_crs
  by_cases h : f.crs ≠ g.crs <;> simp [h]

/-- CRS normalization of a frame without rows yields a frame without
rows. -/
theorem normalize_crs_rows_nil (tr : Point → Point) (f : PointFrame) (g : PolyFrame)
    (h : g.rows = []) : (normalize_crs tr f g).rows = [] := by
  unfold normalize_crs PolyFrame.to_crs
  by_cases hc : f.crs ≠ g.crs <;> simp [hc, h]

/-- The rows of the join are the concatenation of the per-point row
groups, in left-frame order. -/
theorem link_rows (tr : Point → Point) (pts : PointFrame) (polys : PolyFrame) :
    (link_facilities_to_watershed_groups tr pts polys).rows =
      pts.rows.flatMap (sjoinOne (normalize_crs tr pts polys)) := rfl

/-- CRS normalization is the identity on the polygon frame when the two
CRS identifiers agree. -/
theorem normalize_crs_eq_self (tr : Point → Point) (f : PointFrame)
    (g : PolyFrame) (h : f.crs = g.crs) : normalize_crs tr f g = g := by
  unfold normalize_crs
  simp [h]

/-! Claim theorems. -/

/-- C1, counterexample: on the one-point frame P1 whose point lies in both
polygons of G2, the join returns two result records, not len(P1) = 1 as
the claim states. -/
theorem join_totality_counterexample :
    (link_facilities_to_watershed_groups id P1 G2).rows.length = 2 ∧
      (link_facilities_to_watershed_groups id P1 G2).rows.length ≠ P1.rows.length := by
  decide

/-- C1, amended: the join returns the per-point groups in the order of the
input points; whenever every point lies in at most one polygon (after CRS
normalization), the result has exactly one record per input point, in the
same order as the input — the record list projects to the input geometry
list.  A point lying in two or more polygons instead contributes one
record per containing polygon. -/
theorem join_totality_amended (tr : Point → Point) (pts : PointFrame)
    (polys : PolyFrame)
    (h : ∀ p ∈ pts.rows,
      ((normalize_crs tr pts polys).rows.filter
        (fun g => within p.geom g.geom)).length ≤ 1) :
    (link_facilities_to_watershed_groups tr pts polys).rows.map JoinRec.geom =
      pts.rows.map PointRec.geom := by
  rw [link_rows, List.map_flatMap]
  have key : ∀ l : List PointRec,
      (∀ p ∈ l, ((normalize_crs tr pts polys).rows.filter
        (fun g => within p.geom g.geom)).length ≤ 1) →
      (l.flatMap fun a =>
        (sjoinOne (normalize_crs tr pts polys) a).map JoinRec.geom) =
        l.map PointRec.geom := by
    intro l
    induction l with
    | nil => intro _; rfl
    | cons p rest ih =>
      intro hl
      rw [List.flatMap_cons,
        sjoinOne_map_geom _ p (hl p (List.mem_cons_self p rest)),
        ih (fun q hq => hl q (List.mem_cons_of_mem p hq))]
      rfl
  exact key pts.rows h

/-- C1, witness: the amended theorem applied to the specification's
one-point, one-polygon scenario. -/
theorem join_totality_amended_witness :
    (link_facilities_to_watershed_groups id P3 G3).rows.map JoinRec.geom =
      P3.rows.map PointRec.geom :=
  join_totality_amended id P3 G3 (by decide)

/-- C2, counterexample: for the point of P1 lying in both polygons of G2,
the join does not attach the point to exactly the first matching polygon;
it produces one record per matching polygon (here two records, carrying
the attributes of A and of B). -/
theorem first_match_counterexample :
    (link_facilities_to_watershed_groups id P1 G2).rows ≠
      [⟨⟨0, 0⟩, [("id", Value.num 1), ("wsg_id", Value.str "A")]⟩] ∧
    (link_facilities_to_watershed_groups id P1 G2).rows =
      [⟨⟨0, 0⟩, [("id", Value.num 1), ("wsg_id", Value.str "A")]⟩,
       ⟨⟨0, 0⟩, [("id", Value.num 1), ("wsg_id", Value.str "B")]⟩] := by
  decide

/-- C2, amended: a point lying in two or more polygons contributes one
result record per containing polygon, in the iteration order of the
polygon collection, placed at the point's position in the output. -/
theorem overlap_one_record_per_match (tr : Point → Point) (c : Option String)
    (l₁ l₂ : List PointRec) (p : PointRec) (polys : PolyFrame)
    (h : 2 ≤ ((normalize_crs tr ⟨c, l₁ ++ p :: l₂⟩ polys).rows.filter
        (fun g => within p.geom g.geom)).length) :
    (link_facilities_to_watershed_groups tr ⟨c, l₁ ++ p :: l₂⟩ polys).rows =
      l₁.flatMap (sjoinOne (normalize_crs tr ⟨c, l₁ ++ p :: l₂⟩ polys)) ++
      ((normalize_crs tr ⟨c, l₁ ++ p :: l₂⟩ polys).rows.filter
        (fun g => within p.geom g.geom)).map
          (fun g => ⟨p.geom, p.attrs ++ g.attrs⟩) ++
      l₂.flatMap (sjoinOne (normalize_crs tr ⟨c, l₁ ++ p :: l₂⟩ polys)) := by
  rw [link_rows]
  rw [List.flatMap_append, List.flatMap_cons, List.append_assoc]
  rw [sjoinOne_of_matches]
  intro hnil
  rw [hnil] at h
  simp at h

/-- C2, witness: the amended theorem applied to the overlap scenario P1,
G2, yielding the records for polygons A and B in order. -/
theorem overlap_one_record_per_match_witness :
    (link_facilities_to_watershed_groups id P1 G2).rows =
      [⟨⟨0, 0⟩, [("id", Value.num 1), ("wsg_id", Value.str "A")]⟩,
       ⟨⟨0, 0⟩, [("id", Value.num 1), ("wsg_id", Value.str "B")]⟩] := by
  have h := overlap_one_record_per_match id (some "EPSG:4326") [] []
    originRec G2 (by decide)
  simpa using h

/-- C5: the join always evaluates the containment matching on the
normalized polygon frame, whose CRS identifier equals the point frame's;
when the identifiers differ, the normalized frame is exactly the polygon
frame reprojected (via to_crs) into the point frame's CRS. -/
theorem join_crs_reconcile (tr : Point → Point) (pts : PointFrame)
    (polys : PolyFrame) :
    link_facilities_to_watershed_groups tr pts polys =
      sjoin pts (normalize_crs tr pts polys) ∧
    (normalize_crs tr pts polys).crs = pts.crs ∧
    (pts.crs ≠ polys.crs →
      normalize_crs tr pts polys = polys.to_crs tr pts.crs) := by
  refine ⟨rfl, ?_, ?_⟩
  · unfold normalize_crs PolyFrame.to_crs
    by_cases h : pts.crs ≠ polys.crs
    · simp [h]
    · push_neg at h
      simp [h]
  · intro h
    unfold normalize_crs
    simp [h]

/-- C5, witness: the reconciliation facts at a concrete mismatched pair
(P3 in EPSG:4326, Gm in EPSG:3005). -/
theorem join_crs_reconcile_witness :
    normalize_crs id P3 Gm = Gm.to_crs id P3.crs ∧
    (normalize_crs id P3 Gm).crs = P3.crs :=
  ⟨(join_crs_reconcile id P3 Gm).2.2 (by decide),
   (join_crs_reconcile id P3 Gm).2.1⟩

/-- C6: when the point frame's CRS identifier equals the polygon frame's,
CRS normalization returns the polygon frame unchanged — no reprojection
is applied to any geometry. -/
theorem normalize_noop_when_crs_equal (tr : Point → Point) (pts : PointFrame)
    (polys : PolyFrame) (h : pts.crs = polys.crs) :
    normalize_crs tr pts polys = polys := by
  unfold normalize_crs
  simp [h]

/-- C6, witness: the no-op fact at the concrete pair P3, G3, both in
EPSG:4326. -/
theorem normalize_noop_when_crs_equal_witness :
    normalize_crs id P3 G3 = G3 :=
  normalize_noop_when_crs_equal id P3 G3 (by decide)

/-- C8: a call to link_facilities_to_watershed_groups leaves the caller's
two collections exactly as passed — the body rebinds only a local name
and every frame operation returns a new frame — and the returned value is
the fresh join of the inputs. -/
theorem link_inputs_unchanged (tr : Point → Point)
    (s : PointFrame × PolyFrame) :
    (link_call tr s).2 = s ∧
    (link_call tr s).1 = sjoin s.1 (normalize_crs tr s.1 s.2) :=
  ⟨rfl, rfl⟩

/-- C3: when both frames share a CRS and exactly one polygon g of the
polygon frame contains the point p, the result record for p is the single
record carrying p's attributes followed by g's attributes, at p's
position in the output. -/
theorem join_unique_match_attrs (tr : Point → Point) (c : Option String)
    (l₁ l₂ : List PointRec) (p : PointRec) (polys : PolyFrame) (g : PolyRec)
    (hcrs : c = polys.crs)
    (h : polys.rows.filter (fun q => within p.geom q.geom) = [g]) :
    (link_facilities_to_watershed_groups tr ⟨c, l₁ ++ p :: l₂⟩ polys).rows =
      l₁.flatMap (sjoinOne polys) ++ [⟨p.geom, p.attrs ++ g.attrs⟩] ++
        l₂.flatMap (sjoinOne polys) := by
  have hn : normalize_crs tr ⟨c, l₁ ++ p :: l₂⟩ polys = polys :=
    normalize_crs_eq_self tr ⟨c, l₁ ++ p :: l₂⟩ polys hcrs
  rw [link_rows, hn, List.flatMap_append, List.flatMap_cons,
    sjoinOne_of_matches polys p (by rw [h]; exact List.cons_ne_nil g []), h]
  simp

/-- C3, witness: the specification scenario — the point (-123, 49) with
id 1, strictly interior to the single square of G3, yields exactly the
record with the point's attributes plus the polygon id "A". -/
theorem join_unique_match_attrs_witness :
    (link_facilities_to_watershed_groups id P3 G3).rows =
      [⟨⟨-123, 49⟩, [("id", Value.num 1), ("wsg_id", Value.str "A")]⟩] := by
  have h := join_unique_match_attrs id (some "EPSG:4326") [] []
    ⟨⟨-123, 49⟩, [("id", Value.num 1)]⟩ G3
    ⟨specSq, [("wsg_id", Value.str "A")]⟩ (by decide) (by decide)
  simpa [P3, G3] using h

/-- C4: a point contained in no polygon (after CRS normalization) still
produces exactly one result record at its position, carrying all of its
original attributes unchanged followed by a null value for every polygon
column; no point is dropped. -/
theorem join_no_match_nulls (tr : Point → Point) (c : Option String)
    (l₁ l₂ : List PointRec) (p : PointRec) (polys : PolyFrame)
    (h : ((normalize_crs tr ⟨c, l₁ ++ p :: l₂⟩ polys).rows.filter
      (fun q => within p.geom q.geom)) = []) :
    (link_facilities_to_watershed_groups tr ⟨c, l₁ ++ p :: l₂⟩ polys).rows =
      l₁.flatMap (sjoinOne (normalize_crs tr ⟨c, l₁ ++ p :: l₂⟩ polys)) ++
      [⟨p.geom, p.attrs ++ nullAttrs polys.cols⟩] ++
      l₂.flatMap (sjoinOne (normalize_crs tr ⟨c, l₁ ++ p :: l₂⟩ polys)) := by
  rw [link_rows, List.flatMap_append, List.flatMap_cons,
    sjoinOne_of_no_match _ p h, normalize_crs_cols]
  simp

/-- C4, witness: the point (5, 5) with id 2 lies in neither polygon of
G2; its record survives with id unchanged and a null wsg_id. -/
theorem join_no_match_nulls_witness :
    (link_facilities_to_watershed_groups id P4 G2).rows =
      [⟨⟨5, 5⟩, [("id", Value.num 2), ("wsg_id", Value.null)]⟩] := by
  have h := join_no_match_nulls id (some "EPSG:4326") [] []
    ⟨⟨5, 5⟩, [("id", Value.num 2)]⟩ G2 (by decide)
  simpa [P4, G2, nullAttrs] using h

/-- C7: joining any point frame against a polygon frame without rows
succeeds and returns exactly one record per point, in order, each with
the point's attributes followed by a null value for every polygon
column. -/
theorem join_empty_polygons (tr : Point → Point) (pts : PointFrame)
    (polys : PolyFrame) (h : polys.rows = []) :
    (link_facilities_to_watershed_groups tr pts polys).rows =
      pts.rows.map (fun p => ⟨p.geom, p.attrs ++ nullAttrs polys.cols⟩) ∧
    (link_facilities_to_watershed_groups tr pts polys).rows.length =
      pts.rows.length := by
  have hr : (normalize_crs tr pts polys).rows = [] :=
    normalize_crs_rows_nil tr pts polys h
  have hone : ∀ p : PointRec, sjoinOne (normalize_crs tr pts polys) p =
      [⟨p.geom, p.attrs ++ nullAttrs polys.cols⟩] := by
    intro p
    rw [sjoinOne_of_no_match _ p (by rw [hr]; rfl), normalize_crs_cols]
  have key : ∀ l : List PointRec,
      l.flatMap (sjoinOne (normalize_crs tr pts polys)) =
        l.map (fun p => ⟨p.geom, p.attrs ++ nullAttrs polys.cols⟩) := by
    intro l
    induction l with
    | nil => rfl
    | cons p rest ih => rw [List.flatMap_cons, hone p, ih]; rfl
  refine ⟨?_, ?_⟩
  · rw [link_rows, key pts.rows]
  · rw [link_rows, key pts.rows, List.length_map]

/-- C7, witness: the specification scenario with the empty polygon frame
G0 — the single point of P3 survives with a null wsg_id. -/
theorem join_empty_polygons_witness :
    (link_facilities_to_watershed_groups id P3 G0).rows =
      [⟨⟨-123, 49⟩, [("id", Value.num 1), ("wsg_id", Value.null)]⟩] := by
  have h := (join_empty_polygons id P3 G0 rfl).1
  simpa [P3, G0, nullAttrs] using h

/-- Vector frame without a CRS identifier, used to exercise the unset-CRS
branch of vector_to_geodataframe. -/
def gdfU : PolyFrame := ⟨none, ["wsg_id"], [⟨sq1, [("wsg_id", Value.str "A")]⟩]⟩

/-- With overwrite set, every archive entry is extracted, so the returned
list is the full entry list mapped to target paths. -/
theorem unzip_overwrite_all (dir : FPath) (names : List String)
    (fs : List FPath) :
    (unzip_file dir names true fs).1 = names.map (joinPath dir) := by
  induction names generalizing fs with
  | nil => rfl
  | cons e rest ih => simp [unzip_file, ih]

/-- Without overwrite, an entry is extracted exactly when its target path
does not already exist; for archives without duplicate entry names, the
returned list is the filter of the entries against the initial
filesystem. -/
theorem unzip_skip_existing (dir : FPath) (names : List String)
    (fs : List FPath) (hnd : names.Nodup) :
    (unzip_file dir names false fs).1 =
      (names.filter (fun e => !(fs.contains (joinPath dir e)))).map
        (joinPath dir) := by
  induction names generalizing fs with
  | nil => rfl
  | cons e rest ih =>
    obtain ⟨he, hrest⟩ := List.nodup_cons.mp hnd
    by_cases hc : fs.contains (joinPath dir e)
    · have hc' : joinPath dir e ∈ fs := by simpa using hc
      rw [List.filter_cons_of_neg (by simpa using hc)]
      have hstep : unzip_file dir (e :: rest) false fs =
          unzip_file dir rest false fs := by
        simp [unzip_file, hc']
      rw [hstep, ih fs hrest]
    · have hc' : joinPath dir e ∉ fs := by simpa using hc
      rw [List.filter_cons_of_pos (by simpa using hc)]
      have hstep : (unzip_file dir (e :: rest) false fs).1 =
          joinPath dir e ::
            (unzip_file dir rest false (joinPath dir e :: fs)).1 := by
        simp [unzip_file, hc']
      have hcong : rest.filter
          (fun x => !((joinPath dir e :: fs).contains (joinPath dir x))) =
          rest.filter (fun x => !(fs.contains (joinPath dir x))) := by
        apply List.filter_congr
        intro x hx
        have hxe : x ≠ e := fun hEq => he (hEq ▸ hx)
        have hpe : joinPath dir x ≠ joinPath dir e := by
          intro hEq
          exact hxe (by simpa using List.append_cancel_left hEq)
        simp [List.contains_cons, hpe]
      rw [hstep, List.map_cons, ih (joinPath dir e :: fs) hrest, hcong]

/-- C9: unzip_file extracts entries subject to the overwrite flag — with
overwrite, every entry of the archive is extracted and returned; without
overwrite, entries whose target already exists are skipped and omitted,
so the returned list is exactly the entries actually extracted by the
call. -/
theorem unzip_extract_policy :
    (∀ (dir : FPath) (names : List String) (fs : List FPath),
      (unzip_file dir names true fs).1 = names.map (joinPath dir)) ∧
    (∀ (dir : FPath) (names : List String) (fs : List FPath), names.Nodup →
      (unzip_file dir names false fs).1 =
        (names.filter (fun e => !(fs.contains (joinPath dir e)))).map
          (joinPath dir)) :=
  ⟨unzip_overwrite_all, fun dir names fs hnd => unzip_skip_existing dir names fs hnd⟩

/-- C9, witness: extracting entries a and b into out when out/a already
exists — with overwrite both are extracted, without overwrite only b. -/
theorem unzip_extract_policy_witness :
    (unzip_file ["out"] ["a", "b"] true [["out", "a"]]).1 =
      [["out", "a"], ["out", "b"]] ∧
    (unzip_file ["out"] ["a", "b"] false [["out", "a"]]).1 =
      [["out", "b"]] := by
  constructor
  · have h := unzip_extract_policy.1 ["out"] ["a", "b"] [["out", "a"]]
    simpa [joinPath] using h
  · have h := unzip_extract_policy.2 ["out"] ["a", "b"] [["out", "a"]]
      (by decide)
    simpa [joinPath] using h

/-- C10: loading a vector file reprojects only when the loaded CRS is
set, the requested target CRS is non-empty, and the two identifiers
differ; in particular a frame with no CRS identifier is returned
unchanged even when a target CRS is supplied. -/
theorem vector_load_crs_policy (tr : Point → Point) (gdf : PolyFrame)
    (t : Option String) :
    (gdf.crs = none → vector_to_geodataframe tr gdf t = gdf) ∧
    (t = none ∨ t = some "" ∨ t = gdf.crs →
      vector_to_geodataframe tr gdf t = gdf) ∧
    (∀ u s, t = some u → u ≠ "" → gdf.crs = some s → u ≠ s →
      vector_to_geodataframe tr gdf t = gdf.to_crs tr t) := by
  refine ⟨?_, ?_, ?_⟩
  · intro h
    unfold vector_to_geodataframe
    simp [h]
  · rintro (h | h | h) <;> unfold vector_to_geodataframe <;>
      simp [h, strTruthy]
  · intro u s ht hu hc hus
    subst ht
    unfold vector_to_geodataframe
    rw [hc]
    simp [strTruthy, hu, hus]

/-- C10, witness: the three branches at concrete inputs — the CRS-less
frame gdfU is returned unchanged despite a target CRS; a frame is
returned unchanged when no target is given; Gm (EPSG:3005) is reprojected
when EPSG:4326 is requested. -/
theorem vector_load_crs_policy_witness :
    vector_to_geodataframe id gdfU (some "EPSG:4326") = gdfU ∧
    vector_to_geodataframe id Gm none = Gm ∧
    vector_to_geodataframe id Gm (some "EPSG:4326") =
      Gm.to_crs id (some "EPSG:4326") := by
  refine ⟨?_, ?_, ?_⟩
  · exact (vector_load_crs_policy id gdfU (some "EPSG:4326")).1 rfl
  · exact (vector_load_crs_policy id Gm none).2.1 (Or.inl rfl)
  · exact (vector_load_crs_policy id Gm (some "EPSG:4326")).2.2
      "EPSG:4326" "EPSG:3005" rfl (by decide) rfl (by decide)

end BCHydro
